import Mathlib

/-!
Verification of `tools/generate_data.py` from the
`eclipse-sdv-projects-landscape2` repository.

The script's core is `build_landscape_data`, which groups a list of
project records (JSON dictionaries) into a nested
category / subcategory / item document.  We embed that function
shallowly:

* A string-valued JSON field is `Option StrOrNull`: `none` means the key
  is absent from the dictionary, `some .null` means the key is present
  with value `null` (Python `None`), `some (.str s)` a string value.
* Python truthiness of such a value is `truthy` below
  (`None` and `""` are falsy).
* The two I/O effects inside the build — `requests.get` + the file
  write inside `download_logo`, and `Path(path).relative_to(Path.cwd())`
  — are abstracted by an environment `Env`: `fetch url` tells whether
  the download (fetch + write) succeeds, and `relTo path` is the result
  of relativising `path` against the current working directory
  (`none` when `relative_to` raises).  The build never inspects the
  downloaded bytes, only success/failure, so this is faithful.
* Python's ordered `dict` with `setdefault` is an association list that
  updates in place and appends new keys at the end (`addItem`,
  `addToSubs`).
* `proj.get(k, default)` returns the present value (possibly `None`)
  or the default only when the key is absent; `pyGet` models
  `proj.get(k)` (default `None`).
* A computation that can raise returns `Except String _`; the only
  raise inside the grouping loop is `None.split` when `category` is
  present with value `null` (an `AttributeError`).
-/

/-- A JSON value of a string-typed field: `null` or a string. -/
inductive StrOrNull where
  | null : StrOrNull
  | str : String → StrOrNull
deriving DecidableEq, Repr

/-- Python truthiness of a string-or-null value: `None` and `""` are falsy. -/
def truthy : StrOrNull → Bool
  | .null => false
  | .str s => !s.isEmpty

/-- The string carried by a truthy value (arbitrary on `null`, which is never truthy). -/
def strOf : StrOrNull → String
  | .null => ""
  | .str s => s

/-- `d.get(k)` on an optional field: present value (possibly null), else `None`. -/
def pyGet (f : Option StrOrNull) : StrOrNull :=
  f.getD .null

/-- An element of the `github_repos` array: a dictionary with an optional `url` key. -/
structure GithubRepo where
  url : Option StrOrNull
deriving DecidableEq, Repr

/-- An input project record.  Each field is `none` when the key is absent
from the JSON dictionary.  `github_repos` is absent, null, or an array. -/
structure ProjectRecord where
  category : Option StrOrNull := none
  name : Option StrOrNull := none
  summary : Option StrOrNull := none
  url : Option StrOrNull := none
  state : Option StrOrNull := none
  github_repos : Option (Option (List GithubRepo)) := none
  logo : Option StrOrNull := none
deriving DecidableEq, Repr

/-- The output item dictionary.  A field is `none` when the key is absent.
The code always assigns `name`, `description`, `homepage_url` and `logo`;
`project` and `repo_url` are assigned only conditionally. -/
structure Item where
  name : Option StrOrNull := none
  description : Option StrOrNull := none
  homepage_url : Option StrOrNull := none
  project : Option String := none
  repo_url : Option String := none
  logo : Option String := none
deriving DecidableEq, Repr

structure Subcategory where
  name : String
  items : List Item
deriving DecidableEq, Repr

structure Category where
  name : String
  subcategories : List Subcategory
deriving DecidableEq, Repr

/-- The returned structure `{"categories": [...]}`. -/
structure Document where
  categories : List Category
deriving DecidableEq, Repr

/-- The I/O environment of one run: whether downloading a URL (fetch and
file write together) succeeds, and the result of
`str(Path(path).relative_to(Path.cwd()))` (`none` when it raises). -/
structure Env where
  fetch : String → Bool
  relTo : String → Option String

/-- `Path.cwd`-relativisation with the code's `try`/`except` fallback:
on failure the absolute path is kept. -/
def relOrSelf (env : Env) (path : String) : String :=
  (env.relTo path).getD path

/-- `url.split("/")[-1].split("?")[0]`: the final path segment of the URL
(the characters after the last `/`, or the whole string when there is
none) with any query string stripped (the characters before the first
`?`).  Defined on the character list so that it reduces inside the
kernel. -/
def fileName (url : String) : String :=
  ((url.toList.reverse.takeWhile (fun c => c ≠ '/')).reverse.takeWhile
    (fun c => c ≠ '?')).asString

/-- `download_logo(url, dest)`: on success the saved file's path
`dest / file_name`, on any failure (fetch or write) the placeholder path
`dest / "placeholder.svg"`.  The `try`/`except Exception` block makes the
function total. -/
def download_logo (env : Env) (url dest : String) : String :=
  if env.fetch url then dest ++ "/" ++ fileName url
  else dest ++ "/placeholder.svg"

/-- `s.split(sep, maxsplit=1)` on a character list: the part before the
first occurrence of `sep`, and the remainder after it when `sep` occurs. -/
def splitFirstOn (sep : Char) : List Char → List Char × Option (List Char)
  | [] => ([], none)
  | c :: cs =>
    if c = sep then ([], some cs)
    else
      let r := splitFirstOn sep cs
      (c :: r.1, r.2)

/-- Python `s.split("/", maxsplit=1)`: one part when `/` does not occur,
two parts split at the first `/` otherwise. -/
def splitMax1 (sep : Char) (s : String) : List String :=
  match splitFirstOn sep s.toList with
  | (pre, none) => [pre.asString]
  | (pre, some post) => [pre.asString, post.asString]

/-- Python `part.strip()`: drop whitespace from both ends.  (Defined on
the character list so that it reduces inside the kernel; `Char.isWhitespace`
covers the ASCII whitespace Python strips.) -/
def pyStrip (s : String) : String :=
  ((s.toList.dropWhile Char.isWhitespace).reverse.dropWhile Char.isWhitespace).reverse.asString

/-- Lines 93–98: strip every part of the maxsplit-1 split; two parts are
(category, subcategory), one part is the category with subcategory
`"Misc"`. -/
def splitKey (s : String) : String × String :=
  match (splitMax1 '/' s).map pyStrip with
  | [a, b] => (a, b)
  | a :: _ => (a, "Misc")
  | [] => ("", "Misc")

/-- Lines 92–98: `proj.get("category", "Unknown")` followed by the split.
When the key is present with value `null`, `None.split` raises
`AttributeError`; when absent, the default string `"Unknown"` is split. -/
def catKey (field : Option StrOrNull) : Except String (String × String) :=
  match field with
  | some .null => .error "AttributeError: NoneType object has no attribute split"
  | some (.str s) => .ok (splitKey s)
  | none => .ok (splitKey "Unknown")

/-- Lines 129–144: resolve the item's `logo` value from
`logo_url = proj.get("logo")`. -/
def resolveLogo (env : Env) (logo_dir : Option String) (logo_url : StrOrNull) : String :=
  match logo_dir with
  | some dest =>
    if truthy logo_url then
      relOrSelf env (download_logo env (strOf logo_url) dest)
    else
      if truthy logo_url then strOf logo_url else "placeholder.svg"
  | none =>
    if truthy logo_url then strOf logo_url else "placeholder.svg"

/-- The effective `repos` value, line 123: `proj.get("github_repos") or []`
(absent, null and the empty list all collapse to `[]`). -/
def reposOf (p : ProjectRecord) : List GithubRepo :=
  match p.github_repos with
  | some (some l) => l
  | _ => []

/-- Lines 111–147 (minus the category logic): build one output item from
one record. -/
def buildItem (env : Env) (logo_dir : Option String) (p : ProjectRecord) : Item :=
  let base : Item :=
    { name := some (pyGet p.name)
      description := some (pyGet p.summary)
      homepage_url := some (pyGet p.url) }
  let withState :=
    if truthy (pyGet p.state) then { base with project := some (strOf (pyGet p.state)) }
    else base
  let withRepo :=
    match reposOf p with
    | [] => withState
    | r :: _ =>
      if truthy (pyGet r.url) then { withState with repo_url := some (strOf (pyGet r.url)) }
      else withState
  { withRepo with logo := some (resolveLogo env logo_dir (pyGet p.logo)) }

/-- The in-progress grouping structure: the ordered dict of categories,
each holding its ordered dict of subcategories with their item lists. -/
abbrev Grouping := List (String × List (String × List Item))

/-- `subcats.setdefault(subcat_name, ...)` followed by
`subcat["items"].append(item)`: update the first matching subcategory in
place, or append a fresh one at the end. -/
def addToSubs (subs : List (String × List Item)) (sub : String) (it : Item) :
    List (String × List Item) :=
  match subs with
  | [] => [(sub, [it])]
  | (n, its) :: rest =>
    if n = sub then (n, its ++ [it]) :: rest
    else (n, its) :: addToSubs rest sub it

/-- `categories.setdefault(cat_name, ...)` and the subcategory insertion:
update the first matching category in place, or append a fresh one. -/
def addItem (g : Grouping) (cat sub : String) (it : Item) : Grouping :=
  match g with
  | [] => [(cat, [(sub, [it])])]
  | (n, subs) :: rest =>
    if n = cat then (n, addToSubs subs sub it) :: rest
    else (n, subs) :: addItem rest cat sub it

/-- One iteration of the `for proj in projects` loop (lines 90–147). -/
def buildStep (env : Env) (logo_dir : Option String) (g : Grouping) (p : ProjectRecord) :
    Except String Grouping :=
  match catKey p.category with
  | .error e => .error e
  | .ok (c, s) => .ok (addItem g c s (buildItem env logo_dir p))

/-- The whole record loop, threading the grouping dictionary. -/
def buildLoop (env : Env) (logo_dir : Option String) :
    Grouping → List ProjectRecord → Except String Grouping
  | g, [] => .ok g
  | g, p :: ps =>
    match buildStep env logo_dir g p with
    | .error e => .error e
    | .ok g2 => buildLoop env logo_dir g2 ps

/-- Lines 149–158: convert the nested dicts into the list-shaped document,
iterating both levels in insertion order. -/
def flatten (g : Grouping) : Document :=
  ⟨g.map fun c => ⟨c.1, c.2.map fun s => ⟨s.1, s.2⟩⟩⟩

/-- `build_landscape_data(projects, logo_dir)`, lines 54–158. -/
def build_landscape_data (env : Env) (projects : List ProjectRecord)
    (logo_dir : Option String) : Except String Document :=
  (buildLoop env logo_dir [] projects).map flatten

/-! ### Observation functions used to state the claims -/

/-- Total number of items in a grouping. -/
def countGroup (g : Grouping) : Nat :=
  (g.map fun c => (c.2.map fun s => s.2.length).sum).sum

/-- Total number of items across all subcategories of a document. -/
def countDoc (d : Document) : Nat :=
  (d.categories.map fun c => (c.subcategories.map fun s => s.items.length).sum).sum

/-- Distinct elements of a list in order of first occurrence, starting
from an already-accumulated prefix. -/
def firstSeenFrom (acc : List String) (l : List String) : List String :=
  l.foldl (fun a x => if x ∈ a then a else a ++ [x]) acc

/-- Distinct elements of a list in order of first occurrence. -/
def firstSeen (l : List String) : List String :=
  firstSeenFrom [] l

/-- The category string a record contributes when its `category` field
does not raise: the present string, or the default `"Unknown"` when the
key is absent. -/
def catString (p : ProjectRecord) : String :=
  match p.category with
  | some (.str s) => s
  | some .null => ""
  | none => "Unknown"

/-- The (category, subcategory) grouping key of a record that does not
raise. -/
def keyOf (p : ProjectRecord) : String × String :=
  splitKey (catString p)

/-- The subcategory dictionary stored under category name `c`
(the first entry with that name; `[]` when there is none). -/
def findGroup : Grouping → String → List (String × List Item)
  | [], _ => []
  | e :: rest, c => if e.1 = c then e.2 else findGroup rest c

/-- The item list stored under subcategory name `s`. -/
def findSub : List (String × List Item) → String → List Item
  | [], _ => []
  | e :: rest, s => if e.1 = s then e.2 else findSub rest s

/-- Fold a list of keyed items into a grouping, in order. -/
def addAll (g : Grouping) (l : List ((String × String) × Item)) : Grouping :=
  l.foldl (fun acc e => addItem acc e.1.1 e.1.2 e.2) g

/-- The category names of a document, in order. -/
def docCatNames (d : Document) : List String :=
  d.categories.map Category.name

/-- The subcategory names of the first category named `c`, in order. -/
def subNamesIn : List Category → String → List String
  | [], _ => []
  | cat :: rest, c =>
    if cat.name = c then cat.subcategories.map Subcategory.name
    else subNamesIn rest c

/-- The subcategory names of the document's category named `c`, in order. -/
def docSubNames (d : Document) (c : String) : List String :=
  subNamesIn d.categories c

/-- The items of the first subcategory named `s`, in order. -/
def itemsInSubs : List Subcategory → String → List Item
  | [], _ => []
  | sub :: rest, s => if sub.name = s then sub.items else itemsInSubs rest s

/-- The items inside category `c`, subcategory `s`, in order. -/
def itemsIn : List Category → String → String → List Item
  | [], _, _ => []
  | cat :: rest, c, s =>
    if cat.name = c then itemsInSubs cat.subcategories s
    else itemsIn rest c s

/-- The items of subcategory `s` of category `c` of a document, in order. -/
def docItems (d : Document) (c s : String) : List Item :=
  itemsIn d.categories c s

/-- An environment in which every fetch succeeds and `relative_to`
always raises (as it does when the destination directory is relative,
e.g. the script's own `logos`). -/
def envAllOk : Env := ⟨fun _ => true, fun _ => none⟩

/-- An environment in which every fetch fails. -/
def envAllFail : Env := ⟨fun _ => false, fun _ => none⟩

/-- Sample record with category string `"A / B"` and nothing else. -/
def recAB : ProjectRecord := { category := some (.str "A / B") }

/-- Sample record with category string `"A / C"` and nothing else. -/
def recAC : ProjectRecord := { category := some (.str "A / C") }

/-- The item produced from a record with no optional data under the
no-download policy. -/
def itemBare : Item := ⟨some .null, some .null, some .null, none, none, some "placeholder.svg"⟩

/-- The document built from `[recAB, recAC, recAB]` with no logo directory. -/
def docW : Document := ⟨[⟨"A", [⟨"B", [itemBare, itemBare]⟩, ⟨"C", [itemBare]⟩]⟩]⟩

/-! ### Helper lemmas -/

theorem splitFirstOn_of_not_mem (sep : Char) (l : List Char) (h : sep ∉ l) :
    splitFirstOn sep l = (l, none) := by
  induction l with
  | nil => rfl
  | cons c cs ih =>
    rw [List.mem_cons] at h
    push_neg at h
    simp [splitFirstOn, Ne.symm h.1, ih h.2]

theorem splitMax1_of_not_mem (sep : Char) (s : String) (h : sep ∉ s.toList) :
    splitMax1 sep s = [s] := by
  unfold splitMax1
  rw [splitFirstOn_of_not_mem sep _ h]
  exact congrArg (fun t => [t]) (String.asString_toList s)

theorem splitKey_of_no_slash (s : String) (h : ('/' : Char) ∉ s.toList) :
    splitKey s = (pyStrip s, "Misc") := by
  unfold splitKey
  rw [splitMax1_of_not_mem _ _ h]
  rfl

theorem except_map_isOk {γ α β : Type} (f : α → β) (e : Except γ α) :
    (e.map f).isOk = e.isOk := by
  cases e <;> rfl

theorem buildItem_none_env_irrelevant (env env' : Env) (p : ProjectRecord) :
    buildItem env none p = buildItem env' none p := rfl

theorem buildLoop_none_env_irrelevant (env env' : Env) (ps : List ProjectRecord)
    (g : Grouping) : buildLoop env none g ps = buildLoop env' none g ps := by
  induction ps generalizing g with
  | nil => rfl
  | cons p ps ih =>
    cases hc : catKey p.category with
    | error e => simp [buildLoop, buildStep, hc]
    | ok k =>
      obtain ⟨c, s⟩ := k
      simp only [buildLoop, buildStep, hc, buildItem_none_env_irrelevant env env' p]
      exact ih _

theorem buildLoop_isOk_irrelevant (env env' : Env) (ld ld' : Option String)
    (ps : List ProjectRecord) : ∀ g g' : Grouping,
    (buildLoop env ld g ps).isOk = (buildLoop env' ld' g' ps).isOk := by
  induction ps with
  | nil => intro g g'; rfl
  | cons p ps ih =>
    intro g g'
    cases hc : catKey p.category with
    | error e => simp [buildLoop, buildStep, hc]
    | ok k =>
      obtain ⟨c, s⟩ := k
      simp only [buildLoop, buildStep, hc]
      exact ih _ _

/-! ### Claims -/

/-- C2: the category key is obtained by splitting the category string on
the first `/` only, stripping whitespace: `"A / B"` gives `("A", "B")`,
`"A/B/C"` gives `("A", "B/C")`, a string without `/` (the empty string
included) gives the stripped string itself with subcategory `"Misc"`, an
absent category field gives `("Unknown", "Misc")`, and no category
string makes `catKey` fail. -/
theorem category_key_derivation :
    catKey (some (.str "A / B")) = .ok ("A", "B") ∧
    catKey (some (.str "A/B/C")) = .ok ("A", "B/C") ∧
    (∀ s : String, ('/' : Char) ∉ s.toList →
      catKey (some (.str s)) = .ok (pyStrip s, "Misc")) ∧
    catKey (some (.str "")) = .ok ("", "Misc") ∧
    catKey none = .ok ("Unknown", "Misc") ∧
    ∀ s : String, (catKey (some (.str s))).isOk = true := by
  refine ⟨rfl, rfl, ?_, rfl, rfl, fun s => rfl⟩
  intro s h
  have hc : catKey (some (.str s)) = .ok (splitKey s) := rfl
  rw [hc, splitKey_of_no_slash s h]

/-- Witness for C2: the third conjunct applied at the slash-free string
`"Hello"`. -/
theorem category_key_derivation_witness :
    catKey (some (.str "Hello")) = .ok (pyStrip "Hello", "Misc") :=
  category_key_derivation.2.2.1 "Hello" (by decide)

/-- C10: a record whose `category` key is present with value `null`
makes the build fail: `proj.get("category", "Unknown")` only defaults on
an absent key, so `None` reaches `.split` and raises. -/
theorem null_category_fails (env : Env) (ld : Option String) (p : ProjectRecord)
    (ps : List ProjectRecord) (h : p.category = some .null) :
    build_landscape_data env (p :: ps) ld
      = .error "AttributeError: NoneType object has no attribute split" := by
  unfold build_landscape_data buildLoop buildStep catKey
  rw [h]
  rfl

/-- Witness for C10 at a concrete one-record list. -/
theorem null_category_fails_witness :
    build_landscape_data envAllOk [{ category := some .null }] none
      = .error "AttributeError: NoneType object has no attribute split" :=
  null_category_fails envAllOk none { category := some .null } [] rfl

/-- C3 (divergence at the failing input): for a record with no fields at
all, the produced item carries `name`, `description` and `homepage_url`
keys whose value is `null` — the keys are not omitted, contradicting the
module docstring "Fields that are not present in the input are
omitted". -/
theorem absent_fields_become_null (env : Env) (ld : Option String) :
    (buildItem env ld {}).name = some .null ∧
    (buildItem env ld {}).description = some .null ∧
    (buildItem env ld {}).homepage_url = some .null := ⟨rfl, rfl, rfl⟩

/-- C7: the item's `repo_url` is present exactly when the effective
`github_repos` list is non-empty and its first element's `url` is
truthy, and then it equals that url. -/
theorem repo_url_from_first_repo (env : Env) (ld : Option String) (p : ProjectRecord) :
    (buildItem env ld p).repo_url =
      match reposOf p with
      | [] => none
      | r :: _ =>
        if truthy (pyGet r.url) then some (strOf (pyGet r.url)) else none := by
  unfold buildItem
  cases h : reposOf p with
  | nil => cases ht : truthy (pyGet p.state) <;> simp [ht, h]
  | cons r rs =>
    cases ht : truthy (pyGet p.state) <;> cases hu : truthy (pyGet r.url) <;>
      simp [ht, hu, h]

/-- C8: with no logo directory configured the build performs no I/O, so
its result does not depend on the environment: two runs on the same
input produce the same document. -/
theorem no_download_deterministic (env env' : Env) (ps : List ProjectRecord) :
    build_landscape_data env ps none = build_landscape_data env' ps none := by
  unfold build_landscape_data
  rw [buildLoop_none_env_irrelevant env env' ps []]

/-- C5: a failing fetch (or write) is resolved inside `download_logo` to
the placeholder path under the destination directory, and no
fetch/write failure ever changes whether `build_landscape_data`
succeeds. -/
theorem download_failure_contained (env env' : Env) (url dest : String)
    (ps : List ProjectRecord) (ld ld' : Option String)
    (h : env.fetch url = false) :
    download_logo env url dest = dest ++ "/placeholder.svg" ∧
    (build_landscape_data env ps ld).isOk = (build_landscape_data env' ps ld').isOk := by
  constructor
  · simp [download_logo, h]
  · unfold build_landscape_data
    rw [except_map_isOk, except_map_isOk]
    exact buildLoop_isOk_irrelevant env env' ld ld' ps [] []

/-- Witness for C5: the all-failing environment against the all-succeeding
one, on a concrete record list. -/
theorem download_failure_contained_witness :
    download_logo envAllFail "http://a/x.png" "logos" = "logos" ++ "/placeholder.svg" ∧
    (build_landscape_data envAllFail [{ name := some (.str "P") }] (some "logos")).isOk
      = (build_landscape_data envAllOk [{ name := some (.str "P") }] none).isOk :=
  download_failure_contained envAllFail envAllOk "http://a/x.png" "logos"
    [{ name := some (.str "P") }] (some "logos") none rfl

/-- C4: every built item has a present `logo` whose value is the original
URL, a (possibly cwd-relativised) downloaded path or placeholder path
under the destination directory, or the literal `"placeholder.svg"`. -/
theorem logo_always_present (env : Env) (ld : Option String) (p : ProjectRecord) :
    ∃ s : String, (buildItem env ld p).logo = some s ∧
      ((∃ u, pyGet p.logo = .str u ∧ s = u) ∨
       s = "placeholder.svg" ∨
       (∃ dest, ld = some dest ∧
         (s = relOrSelf env (dest ++ "/" ++ fileName (strOf (pyGet p.logo))) ∨
          s = relOrSelf env (dest ++ "/placeholder.svg")))) := by
  refine ⟨resolveLogo env ld (pyGet p.logo), rfl, ?_⟩
  unfold resolveLogo
  cases ld with
  | none =>
    cases hu : pyGet p.logo with
    | null => simp [truthy]
    | str u =>
      cases he : u.isEmpty with
      | true => simp [truthy, he]
      | false => exact Or.inl ⟨u, rfl, by simp [truthy, he, strOf]⟩
  | some dest =>
    cases hu : truthy (pyGet p.logo) with
    | false => simp [hu]
    | true =>
      refine Or.inr (Or.inr ⟨dest, rfl, ?_⟩)
      unfold download_logo
      cases hf : env.fetch (strOf (pyGet p.logo)) with
      | true => simp [hf]
      | false => simp [hf]

/-- C9 counterexample: two distinct logo URLs, both successfully fetched,
whose destination paths coincide because they share the final path
segment `x.png`. -/
theorem distinct_urls_collide :
    envAllOk.fetch "http://a/x.png" = true ∧
    envAllOk.fetch "http://b/x.png" = true ∧
    "http://a/x.png" ≠ "http://b/x.png" ∧
    download_logo envAllOk "http://a/x.png" "logos"
      = download_logo envAllOk "http://b/x.png" "logos" :=
  ⟨rfl, rfl, by decide, rfl⟩

/-- C9 amended: the destination path is derived only from the URL's
final path segment (query stripped): two successfully fetched URLs get
distinct destination paths exactly when those segments differ — URLs
sharing a final segment map to the same file path. -/
theorem download_paths_distinct_iff (env : Env) (u v dest : String)
    (hu : env.fetch u = true) (hv : env.fetch v = true) :
    download_logo env u dest = download_logo env v dest ↔ fileName u = fileName v := by
  unfold download_logo
  rw [hu, hv]
  simp only [if_true]
  constructor
  · intro h
    have hd := congrArg String.data h
    rw [String.data_append, String.data_append, String.data_append,
      String.data_append] at hd
    exact String.toList_inj.mp (List.append_cancel_left hd)
  · intro h
    rw [h]

/-- Witness for the amended C9 at two URLs with different final segments. -/
theorem download_paths_distinct_iff_witness :
    (download_logo envAllOk "http://a/x.png" "logos"
        = download_logo envAllOk "http://a/y.png" "logos") ↔
      fileName "http://a/x.png" = fileName "http://a/y.png" :=
  download_paths_distinct_iff envAllOk "http://a/x.png" "http://a/y.png" "logos" rfl rfl

theorem countSubs_addToSubs (subs : List (String × List Item)) (s : String) (it : Item) :
    ((addToSubs subs s it).map fun e => e.2.length).sum
      = ((subs.map fun e => e.2.length).sum) + 1 := by
  induction subs with
  | nil => simp [addToSubs]
  | cons e rest ih =>
    obtain ⟨n, its⟩ := e
    by_cases h : n = s
    · simp [addToSubs, h]
      omega
    · simp only [addToSubs, if_neg h, List.map_cons, List.sum_cons, ih]
      omega

theorem countGroup_addItem (g : Grouping) (c s : String) (it : Item) :
    countGroup (addItem g c s it) = countGroup g + 1 := by
  induction g with
  | nil => simp [addItem, countGroup, addToSubs]
  | cons e rest ih =>
    obtain ⟨n, subs⟩ := e
    by_cases h : n = c
    · simp only [addItem, if_pos h, countGroup, List.map_cons, List.sum_cons,
        countSubs_addToSubs]
      omega
    · simp only [addItem, if_neg h, countGroup, List.map_cons, List.sum_cons] at ih ⊢
      omega

theorem buildLoop_count (env : Env) (ld : Option String) (ps : List ProjectRecord) :
    ∀ g g' : Grouping, buildLoop env ld g ps = .ok g' →
      countGroup g' = countGroup g + ps.length := by
  induction ps with
  | nil =>
    intro g g' h
    simp only [buildLoop] at h
    cases h
    simp
  | cons p ps ih =>
    intro g g' h
    cases hc : catKey p.category with
    | error e => simp [buildLoop, buildStep, hc] at h
    | ok k =>
      obtain ⟨c, s⟩ := k
      simp only [buildLoop, buildStep, hc] at h
      have hrec := ih _ _ h
      rw [hrec, countGroup_addItem]
      simp only [List.length_cons]
      omega

theorem countDoc_flatten (g : Grouping) : countDoc (flatten g) = countGroup g := by
  simp [countDoc, flatten, countGroup, List.map_map, Function.comp_def]

/-- C1: whenever the build succeeds, the total number of items across
all subcategories of the document equals the number of input records —
each record contributes exactly one item. -/
theorem item_count_equals_input_length (env : Env) (ld : Option String)
    (ps : List ProjectRecord) (d : Document)
    (h : build_landscape_data env ps ld = .ok d) :
    countDoc d = ps.length := by
  unfold build_landscape_data at h
  cases hb : buildLoop env ld [] ps with
  | error e =>
    rw [hb] at h
    cases h
  | ok g =>
    rw [hb] at h
    have hd : d = flatten g := by
      cases h
      rfl
    rw [hd, countDoc_flatten]
    have hcount := buildLoop_count env ld ps [] g hb
    simpa [countGroup] using hcount

/-- Witness for C1 on a concrete two-record input. -/
theorem item_count_equals_input_length_witness :
    countDoc
      ⟨[⟨"A", [⟨"B", [⟨some .null, some .null, some .null, none, none,
          some "placeholder.svg"⟩]⟩]⟩,
        ⟨"Unknown", [⟨"Misc", [⟨some .null, some .null, some .null, none, none,
          some "placeholder.svg"⟩]⟩]⟩]⟩
      = [({ category := some (.str "A / B") } : ProjectRecord), {}].length :=
  item_count_equals_input_length envAllOk none
    [{ category := some (.str "A / B") }, {}]
    ⟨[⟨"A", [⟨"B", [⟨some .null, some .null, some .null, none, none,
        some "placeholder.svg"⟩]⟩]⟩,
      ⟨"Unknown", [⟨"Misc", [⟨some .null, some .null, some .null, none, none,
        some "placeholder.svg"⟩]⟩]⟩]⟩ rfl

theorem map_fst_addToSubs (subs : List (String × List Item)) (s : String) (it : Item) :
    (addToSubs subs s it).map Prod.fst =
      if s ∈ subs.map Prod.fst then subs.map Prod.fst
      else subs.map Prod.fst ++ [s] := by
  induction subs with
  | nil => simp [addToSubs]
  | cons e rest ih =>
    obtain ⟨n, its⟩ := e
    by_cases h : n = s
    · simp [addToSubs, h]
    · simp only [addToSubs, if_neg h, List.map_cons, ih]
      by_cases hm : s ∈ rest.map Prod.fst
      · simp [hm, Ne.symm h]
      · simp [hm, Ne.symm h]

theorem map_fst_addItem (g : Grouping) (c s : String) (it : Item) :
    (addItem g c s it).map Prod.fst =
      if c ∈ g.map Prod.fst then g.map Prod.fst else g.map Prod.fst ++ [c] := by
  induction g with
  | nil => simp [addItem]
  | cons e rest ih =>
    obtain ⟨n, subs⟩ := e
    by_cases h : n = c
    · simp [addItem, h]
    · simp only [addItem, if_neg h, List.map_cons, ih]
      by_cases hm : c ∈ rest.map Prod.fst
      · simp [hm, Ne.symm h]
      · simp [hm, Ne.symm h]

theorem findSub_addToSubs (subs : List (String × List Item)) (s s' : String) (it : Item) :
    findSub (addToSubs subs s it) s' =
      if s' = s then findSub subs s ++ [it] else findSub subs s' := by
  induction subs with
  | nil =>
    by_cases h : s' = s
    · simp [addToSubs, findSub, h]
    · simp [addToSubs, findSub, h, Ne.symm h]
  | cons e rest ih =>
    obtain ⟨n, its⟩ := e
    by_cases hn : n = s
    · subst hn
      by_cases h : s' = n
      · subst h
        simp [addToSubs, findSub]
      · simp [addToSubs, findSub, h, Ne.symm h]
    · simp only [addToSubs, if_neg hn, findSub, ih]
      by_cases h : s' = s
      · subst h
        simp [Ne.symm hn, hn]
      · by_cases hns : n = s'
        · simp [hns, h]
        · simp [hns, h]

theorem findGroup_addItem (g : Grouping) (c s c' : String) (it : Item) :
    findGroup (addItem g c s it) c' =
      if c' = c then addToSubs (findGroup g c) s it else findGroup g c' := by
  induction g with
  | nil =>
    by_cases h : c' = c
    · simp [addItem, findGroup, addToSubs, h]
    · simp [addItem, findGroup, h, Ne.symm h]
  | cons e rest ih =>
    obtain ⟨n, subs⟩ := e
    by_cases hn : n = c
    · subst hn
      by_cases h : c' = n
      · subst h
        simp [addItem, findGroup]
      · simp [addItem, findGroup, h, Ne.symm h]
    · simp only [addItem, if_neg hn, findGroup, ih]
      by_cases h : c' = c
      · subst h
        simp [Ne.symm hn, hn]
      · by_cases hnc : n = c'
        · simp [hnc, h]
        · simp [hnc, h]

theorem map_fst_addAll (l : List ((String × String) × Item)) :
    ∀ g : Grouping, (addAll g l).map Prod.fst
      = firstSeenFrom (g.map Prod.fst) (l.map fun e => e.1.1) := by
  induction l with
  | nil => intro g; rfl
  | cons e l ih =>
    intro g
    have h1 : addAll g (e :: l) = addAll (addItem g e.1.1 e.1.2 e.2) l := rfl
    have h2 : firstSeenFrom (g.map Prod.fst) ((e :: l).map fun x => x.1.1)
        = firstSeenFrom
            (if e.1.1 ∈ g.map Prod.fst then g.map Prod.fst
             else g.map Prod.fst ++ [e.1.1])
            (l.map fun x => x.1.1) := rfl
    rw [h1, ih, map_fst_addItem, h2]

theorem subNames_addAll (l : List ((String × String) × Item)) (c : String) :
    ∀ g : Grouping, (findGroup (addAll g l) c).map Prod.fst
      = firstSeenFrom ((findGroup g c).map Prod.fst)
          ((l.filter fun e => e.1.1 == c).map fun e => e.1.2) := by
  induction l with
  | nil => intro g; rfl
  | cons e l ih =>
    obtain ⟨⟨ec, es⟩, eit⟩ := e
    intro g
    have h1 : addAll g (((ec, es), eit) :: l) = addAll (addItem g ec es eit) l := rfl
    rw [h1, ih, findGroup_addItem]
    by_cases h : ec = c
    · subst h
      rw [if_pos rfl, map_fst_addToSubs]
      have h2 : ((((ec, es), eit) :: l).filter fun e => e.1.1 == ec)
          = ((ec, es), eit) :: (l.filter fun e => e.1.1 == ec) := by
        simp [List.filter_cons]
      rw [h2]
      rfl
    · rw [if_neg (fun hh => h hh.symm)]
      have h2 : ((((ec, es), eit) :: l).filter fun e => e.1.1 == c)
          = l.filter fun e => e.1.1 == c := by
        simp [List.filter_cons, h]
      rw [h2]

theorem items_addAll (l : List ((String × String) × Item)) (c s : String) :
    ∀ g : Grouping, findSub (findGroup (addAll g l) c) s
      = findSub (findGroup g c) s
        ++ (l.filter fun e => e.1.1 == c && e.1.2 == s).map fun e => e.2 := by
  induction l with
  | nil => intro g; simp [addAll]
  | cons e l ih =>
    obtain ⟨⟨ec, es⟩, eit⟩ := e
    intro g
    have h1 : addAll g (((ec, es), eit) :: l) = addAll (addItem g ec es eit) l := rfl
    rw [h1, ih, findGroup_addItem]
    by_cases hc : c = ec
    · subst hc
      rw [if_pos rfl, findSub_addToSubs]
      by_cases hs : s = es
      · subst hs
        rw [if_pos rfl]
        have h2 : ((((c, s), eit) :: l).filter fun e => e.1.1 == c && e.1.2 == s)
            = ((c, s), eit) :: (l.filter fun e => e.1.1 == c && e.1.2 == s) := by
          simp [List.filter_cons]
        rw [h2, List.map_cons, List.append_assoc]
        rfl
      · rw [if_neg hs]
        have h2 : ((((c, es), eit) :: l).filter fun e => e.1.1 == c && e.1.2 == s)
            = l.filter fun e => e.1.1 == c && e.1.2 == s := by
          simp [List.filter_cons, Ne.symm hs]
        rw [h2]
    · rw [if_neg hc]
      have h2 : ((((ec, es), eit) :: l).filter fun e => e.1.1 == c && e.1.2 == s)
          = l.filter fun e => e.1.1 == c && e.1.2 == s := by
        simp [List.filter_cons, Ne.symm hc]
      rw [h2]

theorem catKey_ok_keyOf (p : ProjectRecord) (k : String × String)
    (h : catKey p.category = .ok k) : k = keyOf p := by
  unfold keyOf catString
  cases hp : p.category with
  | none =>
    rw [hp] at h
    cases h
    rfl
  | some v =>
    cases v with
    | null => rw [hp] at h; cases h
    | str s => rw [hp] at h; cases h; rfl

theorem buildLoop_addAll (env : Env) (ld : Option String) (ps : List ProjectRecord) :
    ∀ g g' : Grouping, buildLoop env ld g ps = .ok g' →
      g' = addAll g (ps.map fun p => (keyOf p, buildItem env ld p)) := by
  induction ps with
  | nil =>
    intro g g' h
    simp only [buildLoop] at h
    cases h
    rfl
  | cons p ps ih =>
    intro g g' h
    cases hc : catKey p.category with
    | error e => simp [buildLoop, buildStep, hc] at h
    | ok k =>
      obtain ⟨c, s⟩ := k
      simp only [buildLoop, buildStep, hc] at h
      have hk : (c, s) = keyOf p := catKey_ok_keyOf p (c, s) hc
      rw [ih _ _ h, List.map_cons, ← hk]
      rfl

theorem docCatNames_flatten (g : Grouping) : docCatNames (flatten g) = g.map Prod.fst := by
  simp [docCatNames, flatten, List.map_map, Function.comp_def]

theorem docSubNames_flatten (g : Grouping) (c : String) :
    docSubNames (flatten g) c = (findGroup g c).map Prod.fst := by
  unfold docSubNames flatten
  induction g with
  | nil => rfl
  | cons e rest ih =>
    simp only [List.map_cons, subNamesIn, findGroup]
    by_cases h : e.1 = c
    · simp [h, List.map_map, Function.comp_def]
    · simpa [h] using ih

theorem itemsInSubs_map (subs : List (String × List Item)) (s : String) :
    itemsInSubs (subs.map fun e => ⟨e.1, e.2⟩) s = findSub subs s := by
  induction subs with
  | nil => rfl
  | cons e rest ih =>
    simp only [List.map_cons, itemsInSubs, findSub, ih]

theorem docItems_flatten (g : Grouping) (c s : String) :
    docItems (flatten g) c s = findSub (findGroup g c) s := by
  unfold docItems flatten
  induction g with
  | nil => rfl
  | cons e rest ih =>
    simp only [List.map_cons, itemsIn, findGroup]
    by_cases h : e.1 = c
    · simp [h, itemsInSubs_map]
    · simpa [h] using ih

/-- C6: whenever the build succeeds, category names appear in first-seen
order of the records' category keys, subcategory names within each
category in first-seen order of that category's subcategory keys, and
the items of each (category, subcategory) pair are exactly the items of
the records with that key, in input order — nothing is re-sorted during
flattening. -/
theorem output_order_first_seen (env : Env) (ld : Option String)
    (ps : List ProjectRecord) (d : Document)
    (h : build_landscape_data env ps ld = .ok d) :
    docCatNames d = firstSeen (ps.map fun p => (keyOf p).1) ∧
    (∀ c : String, docSubNames d c
      = firstSeen (((ps.map keyOf).filter fun k => k.1 == c).map fun k => k.2)) ∧
    (∀ c s : String, docItems d c s
      = (ps.filter fun p => (keyOf p).1 == c && (keyOf p).2 == s).map
          (buildItem env ld)) := by
  unfold build_landscape_data at h
  cases hb : buildLoop env ld [] ps with
  | error e =>
    rw [hb] at h
    cases h
  | ok g =>
    rw [hb] at h
    have hd : d = flatten g := by
      cases h
      rfl
    have hg : g = addAll [] (ps.map fun p => (keyOf p, buildItem env ld p)) :=
      buildLoop_addAll env ld ps [] g hb
    subst hd
    refine ⟨?_, ?_, ?_⟩
    · rw [docCatNames_flatten, hg, map_fst_addAll]
      simp [firstSeen, List.map_map, Function.comp_def]
    · intro c
      rw [docSubNames_flatten, hg, subNames_addAll]
      rw [List.filter_map, List.map_map]
      simp [firstSeen, findGroup, List.filter_map, List.map_map, Function.comp_def]
    · intro c s
      rw [docItems_flatten, hg, items_addAll]
      simp [findGroup, findSub, List.filter_map, List.map_map, Function.comp_def]

/-- Witness for C6 on the concrete input `[recAB, recAC, recAB]`. -/
theorem output_order_first_seen_witness :
    docCatNames docW = firstSeen ([recAB, recAC, recAB].map fun p => (keyOf p).1) ∧
    docSubNames docW "A"
      = firstSeen ((([recAB, recAC, recAB].map keyOf).filter
          fun k => k.1 == "A").map fun k => k.2) ∧
    docItems docW "A" "B"
      = ([recAB, recAC, recAB].filter
          fun p => (keyOf p).1 == "A" && (keyOf p).2 == "B").map
          (buildItem envAllOk none) :=
  ⟨(output_order_first_seen envAllOk none [recAB, recAC, recAB] docW rfl).1,
   (output_order_first_seen envAllOk none [recAB, recAC, recAB] docW rfl).2.1 "A",
   (output_order_first_seen envAllOk none [recAB, recAC, recAB] docW rfl).2.2 "A" "B"⟩
